import Mathlib

/-
Shallow embedding of the okane trading core (moexco/okane).

Monetary values (rust_decimal::Decimal in the source) are modelled as ℚ:
the spec mandates arbitrary-precision decimal arithmetic for all funds,
prices, volumes and commissions, and every operation embedded here uses
only +, -, *, comparison and (guarded) division.  Sign tests on Decimal
(`is_sign_positive`, `is_sign_negative`) are modelled as `0 ≤ x` and
`x < 0`; the zero produced by the embedded operations always carries a
positive sign in the source as well at every point where these tests are
reached by the claims below.

Source files embedded:
  crates/core/src/trade/entity.rs   (Order, Trade, Position, snapshots)
  crates/store/src/account.rs       (SqliteAccountStore ledger operations)
  crates/trade/src/account.rs       (AccountState, to_snapshot)
  crates/trade/src/matcher.rs       (LocalMatchEngine::execute_order)
  crates/trade/src/service.rs       (TradeService submit/cancel/tick)
  crates/store/src/pending_order.rs (MemoryPendingOrderStore)
  crates/api/src/routes/trade.rs    (place_order volume validation)
  crates/market/src/buffer.rs       (RollingBuffer)
-/

namespace Okane

/-- Order direction, crates/core/src/trade/entity.rs. -/
inductive OrderDirection
  | Buy
  | Sell
deriving DecidableEq

/-- Order lifecycle status, crates/core/src/trade/entity.rs. -/
inductive OrderStatus
  | Pending
  | Submitted
  | PartialFilled
  | Filled
  | Canceled
  | Rejected
deriving DecidableEq

/-- Logical order, crates/core/src/trade/entity.rs (struct Order). -/
structure Order where
  id : String
  account_id : String
  symbol : String
  direction : OrderDirection
  price : Option ℚ
  volume : ℚ
  filled_volume : ℚ
  status : OrderStatus
  created_at : Int
deriving DecidableEq

/-- Order::new — fresh order with zero fill and Pending status. -/
def Order.new (id account_id symbol : String) (direction : OrderDirection)
    (price : Option ℚ) (volume : ℚ) (now_ms : Int) : Order :=
  { id := id, account_id := account_id, symbol := symbol, direction := direction,
    price := price, volume := volume, filled_volume := 0,
    status := OrderStatus.Pending, created_at := now_ms }

/-- Fill record, crates/core/src/trade/entity.rs (struct Trade). -/
structure Trade where
  order_id : String
  account_id : String
  symbol : String
  direction : OrderDirection
  price : ℚ
  volume : ℚ
  commission : ℚ
  timestamp : Int
deriving DecidableEq

/-- Per-symbol position, crates/core/src/trade/entity.rs (struct Position). -/
structure Position where
  account_id : String
  symbol : String
  volume : ℚ
  average_price : ℚ
deriving DecidableEq

/-- Account funds and positions.  Mirrors both the `asset_status` /
`positions` tables of SqliteAccountStore (crates/store/src/account.rs) and
the in-memory AccountState (crates/trade/src/account.rs); the two
implementations run the same balance/position algorithms.  The position
map is modelled as a list keyed by symbol. -/
structure AccountState where
  account_id : String
  available_balance : ℚ
  frozen_balance : ℚ
  positions : List Position
deriving DecidableEq

/-- Read-only snapshot, crates/core/src/trade/entity.rs (AccountSnapshot). -/
structure AccountSnapshot where
  account_id : String
  available_balance : ℚ
  frozen_balance : ℚ
  total_equity : ℚ
  positions : List Position
deriving DecidableEq

/-- Trade-side error taxonomy, crates/core/src/trade/port.rs (TradeError). -/
inductive TradeError
  | AccountNotFound (msg : String)
  | InsufficientFunds (required actual : ℚ)
  | OrderNotFound (msg : String)
  | InvalidOrderStatus
  | BrokerIntegrationError (msg : String)
  | InternalError (msg : String)
deriving DecidableEq

/-- Deposit (crates/store/src/account.rs, SqliteAccountStore::deposit):
`available += amount`, plus an audit ledger row. -/
def deposit (s : AccountState) (amount : ℚ) : AccountState :=
  { s with available_balance := s.available_balance + amount }

/-- freeze_funds (crates/store/src/account.rs lines 138-179 and
crates/trade/src/account.rs lines 33-43): fail with InsufficientFunds when
`available < amount`, otherwise move `amount` from available to frozen. -/
def freeze_funds (s : AccountState) (amount : ℚ) : Except TradeError AccountState :=
  if s.available_balance < amount then
    Except.error (TradeError.InsufficientFunds amount s.available_balance)
  else
    Except.ok { s with available_balance := s.available_balance - amount,
                       frozen_balance := s.frozen_balance + amount }

/-- unfreeze_funds (crates/store/src/account.rs lines 181-222 and
crates/trade/src/account.rs lines 47-62): clamp the requested amount to the
current frozen balance, then move it back to available. -/
def unfreeze_funds (s : AccountState) (amount : ℚ) : AccountState :=
  let actual_unfreeze := if amount > s.frozen_balance then s.frozen_balance else amount
  { s with frozen_balance := s.frozen_balance - actual_unfreeze,
           available_balance := s.available_balance + actual_unfreeze }

/-- Funds part of process_trade (crates/store/src/account.rs lines 236-266,
step 2 资金结转).  Buy: deduct `price*volume + commission` from frozen,
spilling any excess into available, then release `est_req_funds -
actual_cost` (clamped to the remaining frozen) back to available.  Sell:
credit `price*volume - commission` to available. -/
def settle_funds (s : AccountState) (t : Trade) (est_req_funds : ℚ) : AccountState :=
  if t.direction = OrderDirection.Buy then
    let actual_cost := t.price * t.volume + t.commission
    let s1 :=
      if s.frozen_balance ≥ actual_cost then
        { s with frozen_balance := s.frozen_balance - actual_cost }
      else
        let remain := actual_cost - s.frozen_balance
        { s with frozen_balance := 0,
                 available_balance := s.available_balance - remain }
    let over_frozen := est_req_funds - actual_cost
    if over_frozen > 0 then
      let actual_unfreeze := if over_frozen > s1.frozen_balance then s1.frozen_balance else over_frozen
      { s1 with frozen_balance := s1.frozen_balance - actual_unfreeze,
                available_balance := s1.available_balance + actual_unfreeze }
    else s1
  else
    let actual_gain := t.price * t.volume - t.commission
    { s with available_balance := s.available_balance + actual_gain }

/-- Position part of process_trade (crates/store/src/account.rs lines
277-311, step 3 持仓清算), identical to AccountState::update_position.
Takes the existing (volume, avg_price) pair and returns the new one. -/
def update_position_pair (pos_vol pos_price delta_volume trade_price : ℚ) : ℚ × ℚ :=
  if (0 ≤ pos_vol ∧ 0 ≤ delta_volume) ∨ (pos_vol < 0 ∧ delta_volume < 0) ∨ pos_vol = 0 then
    let old_cost := |pos_vol| * pos_price
    let added_cost := |delta_volume| * trade_price
    let v := pos_vol + delta_volume
    if v = 0 then (v, pos_price)
    else (v, (old_cost + added_cost) / |v|)
  else
    let v := pos_vol + delta_volume
    if v = 0 then (v, 0)
    else if (0 ≤ v ∧ delta_volume < 0) ∨ (v < 0 ∧ 0 ≤ delta_volume) then (v, trade_price)
    else (v, pos_price)

/-- INSERT OR REPLACE INTO positions keyed by symbol. -/
def upsert_position (ps : List Position) (p : Position) : List Position :=
  if ps.any (fun q => q.symbol = p.symbol) then
    ps.map (fun q => if q.symbol = p.symbol then p else q)
  else ps ++ [p]

/-- process_trade (crates/store/src/account.rs lines 224-334): settle the
funds, then upsert the position row for the trade's symbol. -/
def process_trade (s : AccountState) (t : Trade) (est_req_funds : ℚ) : AccountState :=
  let s1 := settle_funds s t est_req_funds
  let delta_volume := if t.direction = OrderDirection.Buy then t.volume else -t.volume
  let existing := s1.positions.find? (fun p => p.symbol = t.symbol)
  let pos_vol := (existing.map Position.volume).getD 0
  let pos_price := (existing.map Position.average_price).getD 0
  let vp := update_position_pair pos_vol pos_price delta_volume t.price
  let newPos : Position :=
    { account_id := s.account_id, symbol := t.symbol,
      volume := vp.1, average_price := vp.2 }
  { s1 with positions := upsert_position s1.positions newPos }

/-- snapshot (crates/store/src/account.rs lines 336-373,
SqliteAccountStore::snapshot): zero-volume position rows are filtered out
of the returned snapshot. -/
def snapshot (s : AccountState) : AccountSnapshot :=
  { account_id := s.account_id,
    available_balance := s.available_balance,
    frozen_balance := s.frozen_balance,
    total_equity := s.available_balance + s.frozen_balance,
    positions := s.positions.filter (fun p => ¬ p.volume = 0) }

/-- to_snapshot (crates/trade/src/account.rs lines 125-136,
AccountState::to_snapshot): returns all position map values, with no
zero-volume filter. -/
def to_snapshot (s : AccountState) : AccountSnapshot :=
  { account_id := s.account_id,
    available_balance := s.available_balance,
    frozen_balance := s.frozen_balance,
    total_equity := s.available_balance + s.frozen_balance,
    positions := s.positions }

/-- Commission rate hard-coded inside LocalMatchEngine::execute_order
(crates/trade/src/matcher.rs line 43:
`Decimal::from_str_exact("0.0001")`). -/
def commission_rate : ℚ := 1 / 10000

/-- execute_order (crates/trade/src/matcher.rs lines 25-64).  Returns the
mutated order together with the produced Trade; None when the status is
neither Pending nor Submitted (the order is then left untouched). -/
def execute_order (order : Order) (current_market_price : ℚ) (now_ms : Int) :
    Option (Order × Trade) :=
  if order.status ≠ OrderStatus.Pending ∧ order.status ≠ OrderStatus.Submitted then
    none
  else
    let execute_price := order.price.getD current_market_price
    let executed_volume := order.volume - order.filled_volume
    let transaction_val := execute_price * executed_volume
    let commission := transaction_val * commission_rate
    let order1 := { order with filled_volume := order.filled_volume + executed_volume,
                               status := OrderStatus.Filled }
    some (order1,
      { order_id := order.id, account_id := order.account_id, symbol := order.symbol,
        direction := order.direction, price := execute_price,
        volume := executed_volume, commission := commission, timestamp := now_ms })

/-- MemoryPendingOrderStore::save (crates/store/src/pending_order.rs):
HashMap insert keyed by order id. -/
def save_order (book : List Order) (o : Order) : List Order :=
  if book.any (fun b => b.id = o.id) then
    book.map (fun b => if b.id = o.id then o else b)
  else book ++ [o]

/-- TradeService::submit_order (crates/trade/src/service.rs lines 39-76).
The market lookup is modelled by `market_price` (None — no current quote —
yields the InternalError path).  Returns (order id, pending book, account
state). -/
def submit_order (market_price : Option ℚ) (now_ms : Int)
    (book : List Order) (s : AccountState) (order : Order) :
    Except TradeError (String × List Order × AccountState) :=
  match market_price with
  | none => Except.error (TradeError.InternalError "no current quote")
  | some latest_price =>
    let est_price := order.price.getD latest_price
    let est_req_funds := est_price * order.volume
    let frozen : Except TradeError AccountState :=
      if order.direction = OrderDirection.Buy then freeze_funds s est_req_funds
      else Except.ok s
    match frozen with
    | Except.error e => Except.error e
    | Except.ok s1 =>
      if order.price = none then
        let order1 := { order with status := OrderStatus.Submitted }
        match execute_order order1 latest_price now_ms with
        | some r => Except.ok (order.id, book, process_trade s1 r.2 est_req_funds)
        | none => Except.ok (order.id, book, s1)
      else
        let order1 := { order with status := OrderStatus.Pending }
        Except.ok (order.id, save_order book order1, s1)

/-- TradeService::cancel_order (crates/trade/src/service.rs lines 78-90).
Removes the order from the pending book; on a Buy order with a price,
unfreezes `price * (volume - filled_volume)`.  The locally mutated order
(status := Canceled) is returned as the third component. -/
def cancel_order (book : List Order) (s : AccountState) (order_id : String) :
    Except TradeError (List Order × AccountState × Order) :=
  match book.find? (fun o => o.id = order_id) with
  | none => Except.error (TradeError.OrderNotFound "Order not found or already filled")
  | some order =>
    let book1 := book.filter (fun o => ¬ o.id = order_id)
    let order1 := { order with status := OrderStatus.Canceled }
    match order1.direction, order1.price with
    | OrderDirection.Buy, some price =>
      let amount := price * (order1.volume - order1.filled_volume)
      Except.ok (book1, unfreeze_funds s amount, order1)
    | _, _ => Except.ok (book1, s, order1)

/-- Candle (crates/core/src/market/entity.rs); `time` is kept in epoch
milliseconds (the tick code reads `candle.time.timestamp_millis()`), and
the f64 prices as exact rationals (tick converts them through
`Decimal::from_f64_retain` before any comparison). -/
structure Candle where
  time : Int
  openPrice : ℚ
  high : ℚ
  low : ℚ
  closePrice : ℚ
  volume : ℚ
  is_final : Bool
deriving DecidableEq

/-- The hit predicate of TradeService::tick for a limit order at
`limit_price`: a Buy order is hit when `candle.low ≤ limit_price`, a Sell
order when `candle.high ≥ limit_price`. -/
def order_hit (candle : Candle) (o : Order) (limit_price : ℚ) : Prop :=
  (o.direction = OrderDirection.Buy ∧ candle.low ≤ limit_price) ∨
  (o.direction = OrderDirection.Sell ∧ candle.high ≥ limit_price)

instance (candle : Candle) (o : Order) (lp : ℚ) : Decidable (order_hit candle o lp) := by
  unfold order_hit
  infer_instance

/-- Accumulator of the per-order loop in TradeService::tick. -/
structure TickAcc where
  filled_ids : List String
  state : AccountState
  trades : List Trade
deriving DecidableEq

/-- Result of a tick: the remaining pending book, the account state, and
the trades the matcher produced. -/
structure TickResult where
  book : List Order
  state : AccountState
  trades : List Trade
deriving DecidableEq

/-- Body of the per-order loop of TradeService::tick (crates/trade/
src/service.rs lines 115-135).  `settle` abstracts the fallible
account_port.process_trade call (est_req_funds is its last argument); on
error the account state is left as it was (the store transaction rolls
back) and the loop continues. -/
def tick_step (settle : AccountState → Trade → ℚ → Except TradeError AccountState)
    (candle : Candle) (acc : TickAcc) (order : Order) : TickAcc :=
  match order.price with
  | none => acc
  | some limit_price =>
    if order_hit candle order limit_price then
      let exec_price := limit_price
      let now_ms := candle.time
      match execute_order order exec_price now_ms with
      | some r =>
        let trade := r.2
        let est_req_funds := limit_price * trade.volume
        let state1 :=
          match settle acc.state trade est_req_funds with
          | Except.ok s1 => s1
          | Except.error _ => acc.state
        { filled_ids := acc.filled_ids ++ [order.id], state := state1,
          trades := acc.trades ++ [trade] }
      | none =>
        { acc with filled_ids := acc.filled_ids ++ [order.id] }
    else acc

/-- TradeService::tick (crates/trade/src/service.rs lines 107-142): fold
the hit-detection loop over the pending orders of `symbol`, then remove
every collected filled id from the book. -/
def tick (settle : AccountState → Trade → ℚ → Except TradeError AccountState)
    (book : List Order) (symbol : String) (candle : Candle) (s : AccountState) :
    TickResult :=
  let pending := book.filter (fun o => o.symbol = symbol)
  let acc := pending.foldl (tick_step settle candle)
    { filled_ids := [], state := s, trades := [] }
  { book := book.filter (fun o => ¬ acc.filled_ids.contains o.id),
    state := acc.state,
    trades := acc.trades }

/-- The settle function actually wired in the backtest service: the pure
ledger process_trade, which never fails in this model. -/
def settle_via_ledger : AccountState → Trade → ℚ → Except TradeError AccountState :=
  fun s t est => Except.ok (process_trade s t est)

/-- place_order route handler (crates/api/src/routes/trade.rs lines
95-136), from the volume check on (the authorization and direction-parsing
guards that precede it are outside the embedded slice).  A non-positive
volume is rejected with a client validation error before any Order is
constructed or submitted; otherwise a fresh Pending order is built and
handed to TradeService::submit_order. -/
def place_order (market_price : Option ℚ) (now_ms : Int)
    (book : List Order) (s : AccountState)
    (oid account_id symbol : String) (direction : OrderDirection)
    (price : Option ℚ) (volume : ℚ) :
    Except String (String × List Order × AccountState) :=
  if volume ≤ 0 then Except.error "Volume must be greater than zero"
  else
    let order := Order.new oid account_id symbol direction price volume now_ms
    match submit_order market_price now_ms book s order with
    | Except.ok r => Except.ok r
    | Except.error _ => Except.error "Trade execution error"

/-- A single ledger operation on one account (the operations the
account-store exposes: deposit, freeze_funds, unfreeze_funds,
process_trade). -/
inductive LedgerOp
  | depositOp (amount : ℚ)
  | freezeOp (amount : ℚ)
  | unfreezeOp (amount : ℚ)
  | tradeOp (t : Trade) (est_req_funds : ℚ)
deriving DecidableEq

/-- Apply one ledger operation.  A freeze_funds that fails with
InsufficientFunds commits nothing (the store transaction is rolled back),
so the state is unchanged. -/
def apply_ledger_op (s : AccountState) (op : LedgerOp) : AccountState :=
  match op with
  | LedgerOp.depositOp a => deposit s a
  | LedgerOp.freezeOp a =>
    match freeze_funds s a with
    | Except.ok s1 => s1
    | Except.error _ => s
  | LedgerOp.unfreezeOp a => unfreeze_funds s a
  | LedgerOp.tradeOp t est => process_trade s t est

/-- Net external cash flow of one ledger operation: deposits add their
amount, a Sell trade adds `price*volume - commission`, a Buy trade removes
`price*volume + commission`, freezes and unfreezes move nothing in or
out. -/
def cash_flow : LedgerOp → ℚ
  | LedgerOp.depositOp a => a
  | LedgerOp.freezeOp _ => 0
  | LedgerOp.unfreezeOp _ => 0
  | LedgerOp.tradeOp t _ =>
    match t.direction with
    | OrderDirection.Buy => -(t.price * t.volume + t.commission)
    | OrderDirection.Sell => t.price * t.volume - t.commission

/-- Total cash of an account: available + frozen. -/
def total_funds (s : AccountState) : ℚ :=
  s.available_balance + s.frozen_balance

/-- RollingBuffer (crates/market/src/buffer.rs): data vector, fixed
capacity, overwrite cursor. -/
structure RollingBuffer (α : Type) where
  data : List α
  capacity : Nat
  cursor : Nat
deriving DecidableEq

namespace RollingBuffer

/-- RollingBuffer::new — empty data, cursor 0. -/
def new (α : Type) (capacity : Nat) : RollingBuffer α :=
  { data := [], capacity := capacity, cursor := 0 }

/-- RollingBuffer::push (crates/market/src/buffer.rs lines 52-59).  When
the buffer is full the source runs `self.data[self.cursor] = item`, which
panics when `cursor` is out of bounds of `data`; that panic is modelled as
`none`. -/
def push (b : RollingBuffer α) (item : α) : Option (RollingBuffer α) :=
  if b.data.length < b.capacity then
    some { b with data := b.data ++ [item] }
  else
    if b.cursor < b.data.length then
      some { b with data := b.data.set b.cursor item,
                    cursor := (b.cursor + 1) % b.capacity }
    else none

/-- Push a whole sequence, propagating the panic. -/
def pushAll (b : RollingBuffer α) (xs : List α) : Option (RollingBuffer α) :=
  xs.foldlM push b

/-- RollingBuffer::last (crates/market/src/buffer.rs lines 74-88). -/
def last (b : RollingBuffer α) : Option α :=
  if b.data.isEmpty then none
  else if b.data.length < b.capacity then b.data.getLast?
  else
    let last_idx := if b.cursor = 0 then b.capacity - 1 else b.cursor - 1
    b.data.get? last_idx

/-- RollingBuffer::to_vec (crates/market/src/buffer.rs lines 102-111). -/
def to_vec (b : RollingBuffer α) : List α :=
  if b.data.length < b.capacity then b.data
  else b.data.drop b.cursor ++ b.data.take b.cursor

end RollingBuffer

/-- Ids collected by the tick loop: exactly the hit limit orders. -/
def tick_fills (candle : Candle) (pending : List Order) : List String :=
  pending.filterMap (fun o =>
    match o.price with
    | none => none
    | some lp => if order_hit candle o lp then some o.id else none)

/-- Trades produced by the tick loop. -/
def tick_trades (candle : Candle) (pending : List Order) : List Trade :=
  pending.filterMap (fun o =>
    match o.price with
    | none => none
    | some lp =>
      if order_hit candle o lp then (execute_order o lp candle.time).map (fun r => r.2)
      else none)

/-- Concrete account used by the C2 counterexample: both balances are
zero, so the nonnegativity bounds hold. -/
def zeroAccount : AccountState :=
  { account_id := "A", available_balance := 0, frozen_balance := 0, positions := [] }

/-- Concrete Buy trade used by the C2 counterexample: price 10, volume 1,
no commission. -/
def buyTen : Trade :=
  { order_id := "T1", account_id := "A", symbol := "AAPL",
    direction := OrderDirection.Buy, price := 10, volume := 1,
    commission := 0, timestamp := 0 }

/-- Concrete Pending Buy limit order used by the C3 evaluation: limit 100,
volume 1, nothing filled. -/
def pendingBuy100 : Order :=
  { id := "B_1", account_id := "PoorWallet", symbol := "AAPL",
    direction := OrderDirection.Buy, price := some 100, volume := 1,
    filled_volume := 0, status := OrderStatus.Pending, created_at := 0 }

/-- Concrete account holding one AAPL share at average price 10, used by
the C8 counterexample. -/
def oneShareAccount : AccountState :=
  { account_id := "A", available_balance := 100, frozen_balance := 0,
    positions := [{ account_id := "A", symbol := "AAPL", volume := 1, average_price := 10 }] }

/-- Concrete Sell trade that closes the single AAPL share. -/
def sellOneShare : Trade :=
  { order_id := "T2", account_id := "A", symbol := "AAPL",
    direction := OrderDirection.Sell, price := 10, volume := 1,
    commission := 0, timestamp := 0 }

/-- Zero-volume Buy limit order used by the C7 counterexample. -/
def zeroVolumeOrder : Order :=
  Order.new "B0" "A" "AAPL" OrderDirection.Buy (some 100) 0 0

/-- Account with 50 available used by the C7 counterexample. -/
def fiftyAccount : AccountState :=
  { account_id := "A", available_balance := 50, frozen_balance := 0, positions := [] }

/-- Pending Buy limit order at 105 for 10 VOO, used by the C4 witness. -/
def vooLimitBuy : Order :=
  { id := "W4", account_id := "A", symbol := "VOO",
    direction := OrderDirection.Buy, price := some 105, volume := 10,
    filled_volume := 0, status := OrderStatus.Pending, created_at := 0 }

/-- Candle whose low touches 105, used by the C4 witness. -/
def vooCandle : Candle :=
  { time := 1000, openPrice := 110, high := 150, low := 105,
    closePrice := 120, volume := 0, is_final := true }

/-- An always-failing settle function, used to witness that tick's fills
and trades do not depend on settlement outcomes. -/
def settle_fail : AccountState → Trade → ℚ → Except TradeError AccountState :=
  fun _ _ _ => Except.error (TradeError.InternalError "store failure")

/-- Limit Buy order at price 7 for 3 units used by the C5 witness. -/
def cancelDemoOrder : Order :=
  { id := "C1ORD", account_id := "A", symbol := "AAPL",
    direction := OrderDirection.Buy, price := some 7, volume := 3,
    filled_volume := 0, status := OrderStatus.Pending, created_at := 0 }

/-- The funds part of a trade settlement moves exactly the trade's net
cash flow in or out of the account. -/
theorem total_funds_settle (s : AccountState) (t : Trade) (est : ℚ) :
    total_funds (settle_funds s t est) = total_funds s + cash_flow (LedgerOp.tradeOp t est) := by
  rcases t with ⟨oid, aid, sym, dir, p, v, c, ts⟩
  cases dir <;>
    simp [settle_funds, cash_flow, total_funds]
  case Buy =>
    split_ifs <;> simp_all <;> try ring
  case Sell => ring

/-- process_trade only touches the position list beyond settle_funds, so
its effect on total cash is the trade's net cash flow. -/
theorem total_funds_process_trade (s : AccountState) (t : Trade) (est : ℚ) :
    total_funds (process_trade s t est) = total_funds s + cash_flow (LedgerOp.tradeOp t est) := by
  have h : total_funds (process_trade s t est) = total_funds (settle_funds s t est) := rfl
  rw [h, total_funds_settle]

/-- Every single ledger operation changes total cash by exactly its net
cash flow. -/
theorem total_funds_apply (s : AccountState) (op : LedgerOp) :
    total_funds (apply_ledger_op s op) = total_funds s + cash_flow op := by
  cases op with
  | depositOp a => simp [apply_ledger_op, deposit, total_funds, cash_flow]; ring
  | freezeOp a =>
    by_cases h : s.available_balance < a
    · simp [apply_ledger_op, freeze_funds, h, cash_flow]
    · simp [apply_ledger_op, freeze_funds, h, cash_flow, total_funds]
  | unfreezeOp a =>
    simp [apply_ledger_op, unfreeze_funds, cash_flow, total_funds]
  | tradeOp t est => exact total_funds_process_trade s t est

/-- C1 (trade conservation): over any finite sequence of ledger
operations, the change of available + frozen equals the sum of deposited
amounts plus, over processed Sell trades, price*volume - commission,
minus, over processed Buy trades, price*volume + commission; freeze and
unfreeze leave the total unchanged and touch nothing but the two
balances. -/
theorem ledger_conservation (s0 : AccountState) (ops : List LedgerOp) :
    (total_funds (ops.foldl apply_ledger_op s0) - total_funds s0 =
      (ops.map cash_flow).sum) ∧
    (∀ s : AccountState, ∀ a : ℚ,
      total_funds (apply_ledger_op s (LedgerOp.freezeOp a)) = total_funds s ∧
      (apply_ledger_op s (LedgerOp.freezeOp a)).positions = s.positions) ∧
    (∀ s : AccountState, ∀ a : ℚ,
      total_funds (apply_ledger_op s (LedgerOp.unfreezeOp a)) = total_funds s ∧
      (apply_ledger_op s (LedgerOp.unfreezeOp a)).positions = s.positions) := by
  refine ⟨?_, ?_, ?_⟩
  · induction ops generalizing s0 with
    | nil => simp
    | cons op rest ih =>
      simp only [List.foldl_cons, List.map_cons, List.sum_cons]
      have h1 := total_funds_apply s0 op
      have h2 := ih (apply_ledger_op s0 op)
      linarith
  · intro s a
    refine ⟨by simpa [cash_flow] using total_funds_apply s (LedgerOp.freezeOp a), ?_⟩
    by_cases h : s.available_balance < a <;> simp [apply_ledger_op, freeze_funds, h]
  · intro s a
    refine ⟨by simpa [cash_flow] using total_funds_apply s (LedgerOp.unfreezeOp a), ?_⟩
    simp [apply_ledger_op, unfreeze_funds]

/-- C6: freeze_funds fails with InsufficientFunds carrying required =
amount and actual = available exactly when available < amount (failure
commits nothing, so the state is untouched); otherwise it moves amount
from available to frozen and changes no other field. -/
theorem freeze_funds_spec (s : AccountState) (amount : ℚ) :
    (s.available_balance < amount →
      freeze_funds s amount =
        Except.error (TradeError.InsufficientFunds amount s.available_balance)) ∧
    (amount ≤ s.available_balance →
      freeze_funds s amount =
        Except.ok { s with available_balance := s.available_balance - amount,
                           frozen_balance := s.frozen_balance + amount }) ∧
    ((∃ e, freeze_funds s amount = Except.error e) ↔ s.available_balance < amount) := by
  refine ⟨?_, ?_, ?_, ?_⟩
  · intro h; simp [freeze_funds, h]
  · intro h; simp [freeze_funds, not_lt.mpr h]
  · rintro ⟨e, he⟩
    by_contra hlt
    simp [freeze_funds, hlt] at he
  · intro h
    exact ⟨TradeError.InsufficientFunds amount s.available_balance,
      by simp [freeze_funds, h]⟩

/-- Witness for C6: a concrete successful freeze of 40 out of 100. -/
theorem freeze_funds_spec_witness :
    freeze_funds
        { account_id := "A", available_balance := 100, frozen_balance := 0, positions := [] } 40 =
      Except.ok
        { account_id := "A", available_balance := 60, frozen_balance := 40, positions := [] } := by
  have h := (freeze_funds_spec
    { account_id := "A", available_balance := 100, frozen_balance := 0, positions := [] } 40).2.1
    (by norm_num)
  norm_num at h
  exact h

/-- C2 amended: starting from nonnegative balances, deposit, freeze and
unfreeze of a nonnegative amount keep both balances nonnegative, and
process_trade of a trade with nonnegative price, volume and commission
keeps the frozen balance nonnegative (the available balance, however, has
no floor — see the counterexample). -/
theorem balances_nonneg_amended (s : AccountState)
    (hA : 0 ≤ s.available_balance) (hF : 0 ≤ s.frozen_balance) :
    (∀ a : ℚ, 0 ≤ a →
      0 ≤ (deposit s a).available_balance ∧ 0 ≤ (deposit s a).frozen_balance) ∧
    (∀ a : ℚ, 0 ≤ a → ∀ s1 : AccountState, freeze_funds s a = Except.ok s1 →
      0 ≤ s1.available_balance ∧ 0 ≤ s1.frozen_balance) ∧
    (∀ a : ℚ, 0 ≤ a →
      0 ≤ (unfreeze_funds s a).available_balance ∧
      0 ≤ (unfreeze_funds s a).frozen_balance) ∧
    (∀ t : Trade, ∀ est : ℚ, 0 ≤ t.price → 0 ≤ t.volume → 0 ≤ t.commission →
      0 ≤ (process_trade s t est).frozen_balance) := by
  refine ⟨?_, ?_, ?_, ?_⟩
  · intro a ha
    constructor
    · simp only [deposit]; linarith
    · exact hF
  · intro a ha s1 hok
    by_cases h : s.available_balance < a
    · simp [freeze_funds, h] at hok
    · simp [freeze_funds, h] at hok
      cases hok
      constructor
      · show 0 ≤ s.available_balance - a
        linarith [not_lt.mp h]
      · show 0 ≤ s.frozen_balance + a
        linarith
  · intro a ha
    simp only [unfreeze_funds]
    split_ifs with h
    · constructor
      · show 0 ≤ s.available_balance + s.frozen_balance
        linarith
      · show 0 ≤ s.frozen_balance - s.frozen_balance
        linarith
    · constructor
      · show 0 ≤ s.available_balance + a
        linarith
      · show 0 ≤ s.frozen_balance - a
        linarith [not_lt.mp h]
  · intro t est hp hv hc
    have hfr : (process_trade s t est).frozen_balance =
        (settle_funds s t est).frozen_balance := rfl
    rw [hfr]
    have hpv : 0 ≤ t.price * t.volume := mul_nonneg hp hv
    rcases t with ⟨oid, aid, sym, dir, p, v, c, ts⟩
    simp only at hpv hp hv hc
    cases dir <;> simp [settle_funds]
    case Buy =>
      split_ifs <;> simp_all
    case Sell => exact hF

/-- C2 counterexample: a Buy settlement against empty balances drives the
available balance strictly negative although the starting state satisfies
both bounds. -/
theorem process_trade_available_negative :
    0 ≤ zeroAccount.available_balance ∧ 0 ≤ zeroAccount.frozen_balance ∧
    (process_trade zeroAccount buyTen 0).available_balance < 0 := by
  refine ⟨by norm_num [zeroAccount], by norm_num [zeroAccount], ?_⟩
  have h : (process_trade zeroAccount buyTen 0).available_balance =
      (settle_funds zeroAccount buyTen 0).available_balance := rfl
  rw [h]
  norm_num [settle_funds, zeroAccount, buyTen]

/-- Witness for C2: the amended preservation applied to the all-zero
account with a deposit of 5. -/
theorem balances_nonneg_amended_witness :
    0 ≤ (deposit zeroAccount 5).available_balance ∧
    0 ≤ (deposit zeroAccount 5).frozen_balance :=
  (balances_nonneg_amended zeroAccount (by norm_num [zeroAccount])
    (by norm_num [zeroAccount])).1 5 (by norm_num)

/-- C8 amended: the SQLite snapshot reports the exact balances, total
equity = available + frozen, and exactly the non-zero-volume positions;
AccountState::to_snapshot instead returns every position, including
zero-volume ones (see the counterexample). -/
theorem snapshot_spec (s : AccountState) :
    (snapshot s).account_id = s.account_id ∧
    (snapshot s).available_balance = s.available_balance ∧
    (snapshot s).frozen_balance = s.frozen_balance ∧
    (snapshot s).total_equity = s.available_balance + s.frozen_balance ∧
    ∀ p : Position, p ∈ (snapshot s).positions ↔ (p ∈ s.positions ∧ p.volume ≠ 0) := by
  refine ⟨rfl, rfl, rfl, rfl, ?_⟩
  intro p
  simp [snapshot, List.mem_filter]

/-- C8 counterexample: selling the single share leaves a zero-volume
position row, and AccountState::to_snapshot reports it instead of
omitting it. -/
theorem to_snapshot_keeps_zero_volume :
    (to_snapshot (process_trade oneShareAccount sellOneShare 0)).positions =
      [{ account_id := "A", symbol := "AAPL", volume := 0, average_price := 0 }] := by
  have hd : sellOneShare.direction = OrderDirection.Sell := rfl
  have hsettle : settle_funds oneShareAccount sellOneShare 0 =
      { account_id := "A", available_balance := 110, frozen_balance := 0,
        positions := [{ account_id := "A", symbol := "AAPL", volume := 1, average_price := 10 }] } := by
    rw [settle_funds, hd]
    rw [if_neg (by decide : ¬ OrderDirection.Sell = OrderDirection.Buy)]
    norm_num [oneShareAccount, sellOneShare]
  have hpair : update_position_pair 1 10 (-1) 10 = (0, 0) := by
    norm_num [update_position_pair]
  show (to_snapshot
    (let s1 := settle_funds oneShareAccount sellOneShare 0
     let delta_volume := if sellOneShare.direction = OrderDirection.Buy
       then sellOneShare.volume else -sellOneShare.volume
     let existing := s1.positions.find? (fun p => p.symbol = sellOneShare.symbol)
     let pos_vol := (existing.map Position.volume).getD 0
     let pos_price := (existing.map Position.average_price).getD 0
     let vp := update_position_pair pos_vol pos_price delta_volume sellOneShare.price
     let newPos : Position :=
       { account_id := oneShareAccount.account_id, symbol := sellOneShare.symbol,
         volume := vp.1, average_price := vp.2 }
     { s1 with positions := upsert_position s1.positions newPos })).positions = _
  rw [hsettle, hd]
  rw [if_neg (by decide : ¬ OrderDirection.Sell = OrderDirection.Buy)]
  norm_num [to_snapshot, sellOneShare, oneShareAccount, List.find?, hpair, upsert_position]

/-- C3: the matcher's commission rate is hard-coded, not configured at
construction.  Executing a Pending Buy limit order (limit 100, volume 1)
yields commission 100 * 1 * 0.0001 = 0.01; a matcher constructed with
rate zero — as the application and the crate's own tests do — would have
to produce 0. -/
theorem execute_order_hardcoded_commission :
    ((execute_order pendingBuy100 100 0).map (fun r => r.2.commission) = some (1 / 100)) ∧
    ((execute_order pendingBuy100 100 0).map (fun r => r.2.commission) ≠ some 0) := by
  norm_num [execute_order, pendingBuy100, commission_rate]

/-- C7 amended: the zero-volume rejection lives in the API route handler
place_order, which refuses the request before any order is constructed or
submitted, so nothing downstream (freeze, match, pending book) runs. -/
theorem place_order_rejects_zero_volume (market_price : Option ℚ) (now_ms : Int)
    (book : List Order) (s : AccountState) (oid account_id symbol : String)
    (direction : OrderDirection) (price : Option ℚ) (volume : ℚ)
    (hv : volume = 0) :
    place_order market_price now_ms book s oid account_id symbol direction price volume =
      Except.error "Volume must be greater than zero" := by
  subst hv
  simp [place_order]

/-- Witness for C7: concrete zero-volume request rejected by the route
handler. -/
theorem place_order_rejects_zero_volume_witness :
    place_order (some 150) 0 [] fiftyAccount "B0" "A" "AAPL"
        OrderDirection.Buy (some 100) 0 =
      Except.error "Volume must be greater than zero" :=
  place_order_rejects_zero_volume (some 150) 0 [] fiftyAccount "B0" "A" "AAPL"
    OrderDirection.Buy (some 100) 0 rfl

/-- C7 counterexample: TradeService::submit_order itself accepts a
zero-volume limit Buy — it freezes 0, succeeds, and inserts the order
into the pending book. -/
theorem submit_order_accepts_zero_volume :
    submit_order (some 150) 0 [] fiftyAccount zeroVolumeOrder =
      Except.ok ("B0", [zeroVolumeOrder], fiftyAccount) := by
  norm_num [submit_order, zeroVolumeOrder, fiftyAccount, Order.new,
    freeze_funds, save_order]
  intro h
  exact Option.noConfusion h

/-- A cancel_order call whose id is absent from the book takes the
OrderNotFound branch. -/
theorem cancel_order_not_found (book : List Order) (s : AccountState) (oid : String)
    (h : book.find? (fun o => o.id = oid) = none) :
    cancel_order book s oid =
      Except.error (TradeError.OrderNotFound "Order not found or already filled") := by
  unfold cancel_order
  rw [h]

/-- C5: cancel_order removes the order from the pending book; an absent id
fails with OrderNotFound (and, the call having produced no new state,
changes nothing); a removed Buy order with a price has
price * (volume - filled_volume) unfrozen and is marked Canceled; a second
cancel on the same id hits the OrderNotFound branch, so no second refund
can be issued. -/
theorem cancel_order_spec (book : List Order) (s : AccountState) (oid : String) :
    (book.find? (fun o => o.id = oid) = none →
      cancel_order book s oid =
        Except.error (TradeError.OrderNotFound "Order not found or already filled")) ∧
    (∀ o : Order, book.find? (fun o => o.id = oid) = some o →
      ∃ r : List Order × AccountState × Order,
        cancel_order book s oid = Except.ok r ∧
        r.1 = book.filter (fun b => ¬ b.id = oid) ∧
        (∀ b ∈ r.1, b.id ≠ oid) ∧
        r.2.2 = { o with status := OrderStatus.Canceled } ∧
        (∀ p : ℚ, o.direction = OrderDirection.Buy → o.price = some p →
          r.2.1 = unfreeze_funds s (p * (o.volume - o.filled_volume))) ∧
        (o.direction = OrderDirection.Sell ∨ o.price = none → r.2.1 = s) ∧
        cancel_order r.1 r.2.1 oid =
          Except.error (TradeError.OrderNotFound "Order not found or already filled")) := by
  have hnone : (book.filter (fun b => ¬ b.id = oid)).find? (fun x => x.id = oid) = none := by
    rw [List.find?_eq_none]
    intro x hx
    have h2 := (List.mem_filter.mp hx).2
    simp at h2 ⊢
    exact h2
  constructor
  · intro h
    exact cancel_order_not_found book s oid h
  · intro o ho
    obtain ⟨o1, o2, o3, dir, pr, o6, o7, o8, o9⟩ := o
    cases dir
    case Buy =>
      cases pr
      case none =>
        refine ⟨⟨book.filter (fun b => ¬ b.id = oid), s,
          ⟨o1, o2, o3, OrderDirection.Buy, none, o6, o7, OrderStatus.Canceled, o9⟩⟩,
          ?_, rfl, ?_, rfl, ?_, ?_, ?_⟩
        · unfold cancel_order
          rw [ho]
        · intro b hb
          have h2 := (List.mem_filter.mp hb).2
          simpa using h2
        · intro p _ hp
          exact Option.noConfusion hp
        · intro _
          rfl
        · exact cancel_order_not_found _ _ _ hnone
      case some p =>
        refine ⟨⟨book.filter (fun b => ¬ b.id = oid),
          unfreeze_funds s (p * (o6 - o7)),
          ⟨o1, o2, o3, OrderDirection.Buy, some p, o6, o7, OrderStatus.Canceled, o9⟩⟩,
          ?_, rfl, ?_, rfl, ?_, ?_, ?_⟩
        · unfold cancel_order
          rw [ho]
        · intro b hb
          have h2 := (List.mem_filter.mp hb).2
          simpa using h2
        · intro q _ hq
          cases hq
          rfl
        · rintro (hS | hN)
          · exact OrderDirection.noConfusion hS
          · exact Option.noConfusion hN
        · exact cancel_order_not_found _ _ _ hnone
    case Sell =>
      refine ⟨⟨book.filter (fun b => ¬ b.id = oid), s,
        ⟨o1, o2, o3, OrderDirection.Sell, pr, o6, o7, OrderStatus.Canceled, o9⟩⟩,
        ?_, rfl, ?_, rfl, ?_, ?_, ?_⟩
      · unfold cancel_order
        rw [ho]
      · intro b hb
        have h2 := (List.mem_filter.mp hb).2
        simpa using h2
      · intro p hB _
        exact OrderDirection.noConfusion hB
      · intro _
        rfl
      · exact cancel_order_not_found _ _ _ hnone

/-- Witness for C5: cancelling an id absent from an empty book fails with
OrderNotFound. -/
theorem cancel_order_spec_witness :
    cancel_order [] zeroAccount "X" =
      Except.error (TradeError.OrderNotFound "Order not found or already filled") :=
  (cancel_order_spec [] zeroAccount "X").1 rfl

/-- The tick loop's collected fill ids and produced trades are exactly
tick_fills / tick_trades appended to the accumulator, for any settle
function and any starting account state. -/
theorem tick_foldl_char
    (settle : AccountState → Trade → ℚ → Except TradeError AccountState)
    (candle : Candle) (pending : List Order) (acc : TickAcc) :
    (pending.foldl (tick_step settle candle) acc).filled_ids =
      acc.filled_ids ++ tick_fills candle pending ∧
    (pending.foldl (tick_step settle candle) acc).trades =
      acc.trades ++ tick_trades candle pending := by
  induction pending generalizing acc with
  | nil => simp [tick_fills, tick_trades]
  | cons o rest ih =>
    obtain ⟨ih1, ih2⟩ := ih (tick_step settle candle acc o)
    rw [List.foldl_cons]
    constructor
    · rw [ih1]
      rcases hpr : o.price with _ | lp
      · simp [tick_step, tick_fills, List.filterMap_cons, hpr]
      · by_cases hh : order_hit candle o lp
        · rcases hex : execute_order o lp candle.time with _ | r <;>
            simp [tick_step, tick_fills, List.filterMap_cons, hpr, hh, hex]
        · simp [tick_step, tick_fills, List.filterMap_cons, hpr, hh]
    · rw [ih2]
      rcases hpr : o.price with _ | lp
      · simp [tick_step, tick_trades, List.filterMap_cons, hpr]
      · by_cases hh : order_hit candle o lp
        · rcases hex : execute_order o lp candle.time with _ | r <;>
            simp [tick_step, tick_trades, List.filterMap_cons, hpr, hh, hex]
        · simp [tick_step, tick_trades, List.filterMap_cons, hpr, hh]

/-- Executing a Pending order with a limit price produces the full-fill
trade at that price. -/
theorem execute_order_pending (o : Order) (lp : ℚ) (now_ms : Int)
    (hp : o.price = some lp) (hst : o.status = OrderStatus.Pending) :
    execute_order o lp now_ms =
      some ({ o with filled_volume := o.filled_volume + (o.volume - o.filled_volume),
                     status := OrderStatus.Filled },
        { order_id := o.id, account_id := o.account_id, symbol := o.symbol,
          direction := o.direction, price := lp,
          volume := o.volume - o.filled_volume,
          commission := lp * (o.volume - o.filled_volume) * commission_rate,
          timestamp := now_ms }) := by
  unfold execute_order
  rw [if_neg (by simp [hst])]
  simp [hp]

/-- C4: on a tick of `symbol`, every pending limit order on that symbol is
removed from the book exactly when it is hit (Buy: candle.low ≤ limit,
Sell: candle.high ≥ limit, equality included); a hit order yields a trade
at execute_price = limit price with the candle's timestamp for the
unfilled volume; and the resulting book and trade list are the same for
every settle function — a settlement failure on one order aborts neither
the removals nor the remaining orders. -/
theorem tick_spec
    (settle settle2 : AccountState → Trade → ℚ → Except TradeError AccountState)
    (book : List Order) (symbol : String) (candle : Candle)
    (s s2 : AccountState) (o : Order) (lp : ℚ)
    (hnd : (book.map Order.id).Nodup)
    (ho : o ∈ book) (hsym : o.symbol = symbol)
    (hp : o.price = some lp) (hst : o.status = OrderStatus.Pending) :
    (o ∈ (tick settle book symbol candle s).book ↔ ¬ order_hit candle o lp) ∧
    (order_hit candle o lp →
      ({ order_id := o.id, account_id := o.account_id, symbol := o.symbol,
         direction := o.direction, price := lp,
         volume := o.volume - o.filled_volume,
         commission := lp * (o.volume - o.filled_volume) * commission_rate,
         timestamp := candle.time } : Trade) ∈ (tick settle book symbol candle s).trades) ∧
    (tick settle book symbol candle s).book = (tick settle2 book symbol candle s2).book ∧
    (tick settle book symbol candle s).trades = (tick settle2 book symbol candle s2).trades := by
  have hpend : o ∈ book.filter (fun b => b.symbol = symbol) := by
    rw [List.mem_filter]
    exact ⟨ho, by simp [hsym]⟩
  have hchar := tick_foldl_char settle candle (book.filter (fun b => b.symbol = symbol))
    { filled_ids := [], state := s, trades := [] }
  have hchar2 := tick_foldl_char settle2 candle (book.filter (fun b => b.symbol = symbol))
    { filled_ids := [], state := s2, trades := [] }
  have hbook : (tick settle book symbol candle s).book =
      book.filter (fun b =>
        ¬ (tick_fills candle (book.filter (fun x => x.symbol = symbol))).contains b.id) := by
    simp only [tick]
    rw [hchar.1]
    simp
  have hbook2 : (tick settle2 book symbol candle s2).book =
      book.filter (fun b =>
        ¬ (tick_fills candle (book.filter (fun x => x.symbol = symbol))).contains b.id) := by
    simp only [tick]
    rw [hchar2.1]
    simp
  have htr : (tick settle book symbol candle s).trades =
      tick_trades candle (book.filter (fun x => x.symbol = symbol)) := by
    simp only [tick]
    rw [hchar.2]
    simp
  have htr2 : (tick settle2 book symbol candle s2).trades =
      tick_trades candle (book.filter (fun x => x.symbol = symbol)) := by
    simp only [tick]
    rw [hchar2.2]
    simp
  have hfillmem : o.id ∈ tick_fills candle (book.filter (fun x => x.symbol = symbol)) ↔
      order_hit candle o lp := by
    constructor
    · intro hmem
      rcases List.mem_filterMap.mp hmem with ⟨o2, ho2, hfo2⟩
      rcases hpr2 : o2.price with _ | lp2
      · rw [hpr2] at hfo2
        simp at hfo2
      · rw [hpr2] at hfo2
        by_cases hh2 : order_hit candle o2 lp2
        · have hid : o2.id = o.id := by
            simpa [hh2] using hfo2
          have ho2book : o2 ∈ book := (List.mem_filter.mp ho2).1
          have heq : o2 = o := List.inj_on_of_nodup_map hnd ho2book ho hid
          subst heq
          rw [hp] at hpr2
          cases hpr2
          exact hh2
        · simp [hh2] at hfo2
    · intro hh
      apply List.mem_filterMap.mpr
      refine ⟨o, hpend, ?_⟩
      rw [hp]
      simp [hh]
  refine ⟨?_, ?_, ?_, ?_⟩
  · rw [hbook]
    rw [List.mem_filter]
    constructor
    · intro hmem
      have h2 := hmem.2
      simp only [decide_not, Bool.not_eq_true', decide_eq_false_iff_not] at h2
      rw [List.elem_iff] at h2
      rw [← hfillmem]
      exact h2
    · intro hnothit
      refine ⟨ho, ?_⟩
      simp only [decide_not, Bool.not_eq_true', decide_eq_false_iff_not]
      rw [List.elem_iff]
      rw [hfillmem]
      exact hnothit
  · intro hh
    rw [htr]
    apply List.mem_filterMap.mpr
    refine ⟨o, hpend, ?_⟩
    rw [hp]
    simp only [hh, if_true]
    rw [execute_order_pending o lp candle.time hp hst]
    rfl
  · rw [hbook, hbook2]
  · rw [htr, htr2]

/-- Witness for C4: a Buy limit order at 105 on VOO is hit by a candle
with low = 105, producing the corresponding trade with the candle's
timestamp; book and trades agree between the real ledger settle and an
always-failing settle. -/
theorem tick_spec_witness :
    (vooLimitBuy ∈ (tick settle_via_ledger [vooLimitBuy] "VOO" vooCandle zeroAccount).book ↔
      ¬ order_hit vooCandle vooLimitBuy 105) ∧
    (order_hit vooCandle vooLimitBuy 105 →
      ({ order_id := "W4", account_id := "A", symbol := "VOO",
         direction := OrderDirection.Buy, price := 105,
         volume := vooLimitBuy.volume - vooLimitBuy.filled_volume,
         commission := 105 * (vooLimitBuy.volume - vooLimitBuy.filled_volume) * commission_rate,
         timestamp := 1000 } : Trade) ∈
        (tick settle_via_ledger [vooLimitBuy] "VOO" vooCandle zeroAccount).trades) ∧
    (tick settle_via_ledger [vooLimitBuy] "VOO" vooCandle zeroAccount).book =
      (tick settle_fail [vooLimitBuy] "VOO" vooCandle zeroAccount).book ∧
    (tick settle_via_ledger [vooLimitBuy] "VOO" vooCandle zeroAccount).trades =
      (tick settle_fail [vooLimitBuy] "VOO" vooCandle zeroAccount).trades :=
  tick_spec settle_via_ledger settle_fail [vooLimitBuy] "VOO" vooCandle
    zeroAccount zeroAccount vooLimitBuy 105
    (by simp [vooLimitBuy]) (by simp) rfl rfl rfl

/-- Rotation view of an in-place overwrite: writing at the cursor of a
full circular buffer and advancing the cursor modulo the length turns the
rotation reading into dropping the oldest element and appending the new
one. -/
theorem rot_set {α : Type} (l : List α) (k : Nat) (x : α) (hk : k < l.length) :
    ((l.set k x).drop ((k + 1) % l.length) ++ (l.set k x).take ((k + 1) % l.length)) =
      ((l.drop k ++ l.take k).drop 1 ++ [x]) := by
  have hset : l.set k x = l.take k ++ x :: l.drop (k + 1) := List.set_eq_take_cons_drop x hk
  have hsplit : l.set k x = (l.take k ++ [x]) ++ l.drop (k + 1) := by
    rw [hset]
    simp
  have hlen : (l.take k ++ [x]).length = k + 1 := by
    simp [List.length_take]
    omega
  have hdk : (l.drop k ++ l.take k).drop 1 = l.drop (k + 1) ++ l.take k := by
    have h1 : (1 : Nat) ≤ (l.drop k).length := by
      rw [List.length_drop]
      omega
    rw [List.drop_append_of_le_length h1, List.drop_drop]
  by_cases h1 : k + 1 = l.length
  · have hm : (k + 1) % l.length = 0 := by
      rw [h1, Nat.mod_self]
    have hdrop : l.drop (k + 1) = [] := by
      rw [h1, List.drop_length]
    rw [hm]
    simp only [List.drop_zero, List.take_zero, List.append_nil]
    rw [hsplit, hdrop, hdk, hdrop]
    simp
  · have hlt : k + 1 < l.length := by omega
    have hm : (k + 1) % l.length = k + 1 := Nat.mod_eq_of_lt hlt
    rw [hm]
    rw [hsplit, List.drop_left' hlen, List.take_left' hlen, hdk]
    rw [List.append_assoc]

/-- pushAll over an appended element is a bind of the final push. -/
theorem pushAll_append_one {α : Type} (b : RollingBuffer α) (xs : List α) (x : α) :
    RollingBuffer.pushAll b (xs ++ [x]) =
      (RollingBuffer.pushAll b xs).bind (fun b2 => RollingBuffer.push b2 x) := by
  unfold RollingBuffer.pushAll
  rw [List.foldlM_append]
  rcases h : List.foldlM RollingBuffer.push b xs with _ | b2 <;> simp

/-- State of a rolling buffer of capacity c ≥ 1 after pushing xs: below
capacity the data is xs itself with cursor 0; at or above capacity the
data is full, the cursor is in range, and reading from the cursor around
gives the last c pushed elements. -/
theorem pushAll_char {α : Type} (c : Nat) (hc : 1 ≤ c) (xs : List α) :
    ∃ b : RollingBuffer α, RollingBuffer.pushAll (RollingBuffer.new α c) xs = some b ∧
      b.capacity = c ∧
      (xs.length < c → b.data = xs ∧ b.cursor = 0) ∧
      (c ≤ xs.length → b.data.length = c ∧ b.cursor < c ∧
        b.data.drop b.cursor ++ b.data.take b.cursor = xs.drop (xs.length - c)) := by
  induction xs using List.reverseRecOn with
  | nil =>
    refine ⟨RollingBuffer.new α c, rfl, rfl, fun _ => ⟨rfl, rfl⟩, fun h => ?_⟩
    simp [RollingBuffer.new] at h
    omega
  | append_singleton xs x ih =>
    obtain ⟨b, hpa, hcap, hsmall, hfull⟩ := ih
    by_cases h1 : xs.length + 1 < c
    · obtain ⟨hdata, hcur⟩ := hsmall (by omega)
      have hpush : RollingBuffer.push b x = some { b with data := b.data ++ [x] } := by
        unfold RollingBuffer.push
        rw [if_pos (by rw [hdata, hcap]; omega)]
      refine ⟨{ b with data := b.data ++ [x] }, ?_, hcap, ?_, ?_⟩
      · rw [pushAll_append_one, hpa]
        simpa using hpush
      · intro _
        constructor
        · simp [hdata]
        · simp [hcur]
      · intro habs
        simp at habs
        omega
    · by_cases h2 : xs.length + 1 = c
      · obtain ⟨hdata, hcur⟩ := hsmall (by omega)
        have hpush : RollingBuffer.push b x = some { b with data := b.data ++ [x] } := by
          unfold RollingBuffer.push
          rw [if_pos (by rw [hdata, hcap]; omega)]
        refine ⟨{ b with data := b.data ++ [x] }, ?_, hcap, ?_, ?_⟩
        · rw [pushAll_append_one, hpa]
          simpa using hpush
        · intro habs
          simp at habs
          omega
        · intro _
          refine ⟨by simp [hdata]; omega, by rw [hcur]; omega, ?_⟩
          rw [hcur]
          simp only [List.drop_zero, List.take_zero, List.append_nil]
          rw [hdata]
          have : xs.length + 1 - c = 0 := by omega
          rw [List.length_append]
          simp [this]
      · have h3 : c ≤ xs.length := by omega
        obtain ⟨hlen, hcur, hrot⟩ := hfull h3
        have hklt : b.cursor < b.data.length := by omega
        have hpush : RollingBuffer.push b x =
            some { b with data := b.data.set b.cursor x,
                          cursor := (b.cursor + 1) % b.capacity } := by
          unfold RollingBuffer.push
          rw [if_neg (by omega), if_pos hklt]
        refine ⟨{ b with data := b.data.set b.cursor x,
                         cursor := (b.cursor + 1) % b.capacity }, ?_, hcap, ?_, ?_⟩
        · rw [pushAll_append_one, hpa]
          simpa using hpush
        · intro habs
          simp at habs
          omega
        · intro _
          have hlen2 : (b.data.set b.cursor x).length = c := by
            rw [List.length_set, hlen]
          refine ⟨hlen2, ?_, ?_⟩
          · have : 0 < c := hc
            rw [hcap]
            exact Nat.mod_lt _ this
          · show (b.data.set b.cursor x).drop ((b.cursor + 1) % b.capacity) ++
                (b.data.set b.cursor x).take ((b.cursor + 1) % b.capacity) =
                (xs ++ [x]).drop ((xs ++ [x]).length - c)
            have hcapdata : b.capacity = b.data.length := by omega
            rw [hcapdata]
            rw [rot_set b.data b.cursor x hklt]
            rw [hrot]
            have hlen3 : (xs ++ [x]).length - c = (xs.length - c) + 1 := by
              rw [List.length_append]
              simp
              omega
            rw [hlen3]
            have hd1 : xs.length - c + 1 ≤ xs.length := by omega
            rw [List.drop_append_of_le_length (by omega)]
            rw [List.drop_drop]

/-- C9: for capacity c ≥ 1, pushing any sequence succeeds, to_vec returns
the last min(n, c) pushed elements oldest-first (wrap-around included),
and last() returns the most recently pushed element (None when nothing
was pushed). -/
theorem rolling_buffer_spec (c : Nat) (hc : 1 ≤ c) (xs : List Int) :
    ∃ b : RollingBuffer Int, RollingBuffer.pushAll (RollingBuffer.new Int c) xs = some b ∧
      b.to_vec = xs.drop (xs.length - c) ∧
      b.last = xs.getLast? := by
  obtain ⟨b, hpa, hcap, hsmall, hfull⟩ := pushAll_char c hc xs
  refine ⟨b, hpa, ?_, ?_⟩
  · by_cases h : xs.length < c
    · obtain ⟨hdata, hcur⟩ := hsmall h
      unfold RollingBuffer.to_vec
      rw [if_pos (by rw [hdata, hcap]; omega)]
      rw [hdata]
      have h0 : xs.length - c = 0 := by omega
      rw [h0, List.drop_zero]
    · obtain ⟨hlen, hcur, hrot⟩ := hfull (by omega)
      unfold RollingBuffer.to_vec
      rw [if_neg (by rw [hlen, hcap]; omega)]
      exact hrot
  · by_cases h : xs.length < c
    · obtain ⟨hdata, hcur⟩ := hsmall h
      unfold RollingBuffer.last
      rw [hdata, hcap]
      by_cases hxe : xs.isEmpty
      · rw [if_pos hxe]
        rw [List.isEmpty_iff] at hxe
        rw [hxe]
        rfl
      · rw [if_neg hxe]
        rw [if_pos (by omega)]
    · obtain ⟨hlen, hcur, hrot⟩ := hfull (by omega)
      unfold RollingBuffer.last
      have hne : ¬ b.data.isEmpty = true := by
        rw [List.isEmpty_iff]
        intro h0
        rw [h0] at hlen
        simp at hlen
        omega
      rw [if_neg hne, if_neg (by omega)]
      have hxl : xs.getLast? = (xs.drop (xs.length - c)).getLast? := by
        rw [List.getLast?_eq_get?, List.getLast?_eq_get?]
        rw [List.get?_drop]
        rw [List.length_drop]
        congr 1
        omega
      rw [hxl, ← hrot]
      by_cases hc0 : b.cursor = 0
      · rw [if_pos hc0]
        rw [hc0, List.drop_zero, List.take_zero, List.append_nil]
        rw [List.getLast?_eq_get?]
        have hci : b.capacity - 1 = b.data.length - 1 := by omega
        rw [hci]
      · rw [if_neg hc0]
        have htkne : b.data.take b.cursor ≠ [] := by
          have h1 : 0 < (b.data.take b.cursor).length := by
            rw [List.length_take]
            omega
          exact List.ne_nil_of_length_pos h1
        rw [List.getLast?_append_of_ne_nil _ htkne]
        rw [List.getLast?_eq_get?]
        rw [List.length_take]
        have hminc : min b.cursor b.data.length = b.cursor := by omega
        rw [hminc]
        rw [List.get?_take (by omega)]

/-- C10: under capacity ≥ 1 push is total on every reachable buffer and
the stored length never exceeds the capacity; with capacity 0, push takes
the overwrite branch and indexes position cursor of the empty data vector
— the out-of-bounds (panic) branch, modelled as none, is reached. -/
theorem push_capacity_spec (c : Nat) (hc : 1 ≤ c) (xs : List Int) (x y : Int) :
    (∃ b : RollingBuffer Int, RollingBuffer.pushAll (RollingBuffer.new Int c) xs = some b ∧
      b.data.length ≤ c ∧ (RollingBuffer.push b x).isSome = true) ∧
    RollingBuffer.push (RollingBuffer.new Int 0) y = none := by
  constructor
  · obtain ⟨b, hpa, hcap, hsmall, hfull⟩ := pushAll_char c hc xs
    have hlen : b.data.length ≤ c := by
      by_cases h : xs.length < c
      · rw [(hsmall h).1]
        omega
      · rw [(hfull (by omega)).1]
    refine ⟨b, hpa, hlen, ?_⟩
    unfold RollingBuffer.push
    by_cases h : b.data.length < b.capacity
    · rw [if_pos h]
      rfl
    · rw [if_neg h]
      by_cases h2 : xs.length < c
      · exfalso
        have h3 := congrArg List.length (hsmall h2).1
        omega
      · obtain ⟨hl2, hcur, _⟩ := hfull (by omega)
        rw [if_pos (by omega)]
        rfl
  · rfl


/-- Witness for C9: capacity 2, pushes [1, 2, 3]; to_vec is [2, 3] and
last is 3. -/
theorem rolling_buffer_spec_witness :
    ∃ b : RollingBuffer Int, RollingBuffer.pushAll (RollingBuffer.new Int 2) [1, 2, 3] = some b ∧
      b.to_vec = [2, 3] ∧ b.last = some 3 := by
  have h := rolling_buffer_spec 2 (by norm_num) [1, 2, 3]
  simpa using h

/-- Witness for C10: capacity 1 stays total after a push, and a
capacity-0 buffer hits the indexing error branch. -/
theorem push_capacity_spec_witness :
    (∃ b : RollingBuffer Int, RollingBuffer.pushAll (RollingBuffer.new Int 1) [5] = some b ∧
      b.data.length ≤ 1 ∧ (RollingBuffer.push b 6).isSome = true) ∧
    RollingBuffer.push (RollingBuffer.new Int 0) 7 = none :=
  push_capacity_spec 1 (by norm_num) [5] 6 7

end Okane
